import Mathlib

/-!
Shallow embedding of the membership/visibility reconciliation core of the
matrix-appservice-irc bridge (PublicitySyncer, MembershipQueue, IrcHandler).
Each definition mirrors one source function; theorems settle the frozen
claims about the specification.
-/

namespace Bridge

/-- Room directory visibility: the two string constants "private" / "public"
used throughout `PublicitySyncer`. -/
inductive Vis
  | pub
  | priv
  deriving DecidableEq, Repr

/-- Association-list update mirroring JS object property assignment
`obj[k] = v`: overwrite in place if the key exists, else append
(JS objects preserve insertion order for string keys). -/
def setAssoc {α : Type} (l : List (String × α)) (k : String) (v : α) : List (String × α) :=
  if l.any (fun p => p.1 == k) then
    l.map (fun p => if p.1 == k then (k, v) else p)
  else
    l ++ [(k, v)]

/-- An IRC server as seen by the syncer: `server.domain` and
`server.getNetworkId()`. -/
structure IrcServer where
  domain : String
  networkId : String
  deriving DecidableEq, Repr

/-- The store's room/channel mapping table: (server domain, channel, roomId)
triples; `getMatrixRoomsForChannel(server, channel)` filters it. -/
structure Store where
  mappings : List (String × String × String)
  roomVis : List (String × Vis)
  deriving Repr

/-- Source: `ircBridge.getStore().getMatrixRoomsForChannel(server, channel)`,
returning the room ids of the mappings for that server and channel. -/
def getMatrixRoomsForChannel (st : Store) (server : IrcServer) (channel : String) :
    List String :=
  (st.mappings.filter (fun m => m.1 == server.domain && m.2.1 == channel)).map
    (fun m => m.2.2)

/-- The `visibilityMap` field of `PublicitySyncer`: all four caches are JS
objects with string keys, modelled as insertion-ordered association lists. -/
structure VisibilityMap where
  mappings : List (String × List String)
  networkToRooms : List (String × List String)
  channelIsSecret : List (String × Bool)
  roomVisibilities : List (String × Vis)
  deriving Repr

/-- Source: `getIRCVisMapKey(networkId, channel)` returns `networkId ++ " " ++ channel`
(the documented key for `channelIsSecret` updates). -/
def getIRCVisMapKey (networkId channel : String) : String :=
  networkId ++ " " ++ channel

/-- Outcome of the per-room async task inside `solveVisibility`'s
`Promise.all`: either it threw a `TypeError` before reaching any remote call
(dereferencing `undefined`), or it issued the visibility updates, or it was a
no-op because the current state already matched. -/
inductive TaskResult
  | errored
  | updated
  | noop
  deriving DecidableEq, Repr

/-- Remote effects issued by `solveVisibility`'s per-room task:
`cli.setRoomDirectoryVisibilityAppService(networkId, roomId, correctState)`
and `store.setRoomVisibility(roomId, correctState)`. -/
inductive RemoteAction
  | setDirectoryVisibility (networkId roomId : String) (v : Vis)
  | setStoreVisibility (roomId : String) (v : Vis)
  deriving DecidableEq, Repr

/-- The per-room task body of `solveVisibility` (the arrow function passed to
`roomIds.map`). In the source it reads
`this.visibilityMap.mappings[roomId][0].split(' ')[0]`; when
`mappings[roomId]` is `undefined` (key absent) the `[0]` access throws a
`TypeError`, and when the array is empty the `.split` on `undefined` throws,
in both cases before `setRoomDirectoryVisibilityAppService` is reached. -/
def perRoomTask (vm : VisibilityMap) (currentState correct : Vis) (roomId : String) :
    TaskResult × List RemoteAction × VisibilityMap :=
  match vm.mappings.lookup roomId with
  | none => (TaskResult.errored, [], vm)
  | some keys =>
    match keys.head? with
    | none => (TaskResult.errored, [], vm)
    | some k =>
      let networkId := ((k.splitOn " ").headD "")
      if currentState ≠ correct then
        (TaskResult.updated,
         [RemoteAction.setDirectoryVisibility networkId roomId correct,
          RemoteAction.setStoreVisibility roomId correct],
         { vm with roomVisibilities := setAssoc vm.roomVisibilities roomId correct })
      else
        (TaskResult.noop, [], vm)

/-- Result of one `solveVisibility(channel, server)` run: the mutated
visibility map, the computed `correctState`, the per-room task results, the
remote actions issued, and whether the returned `Promise.all` rejected. -/
structure SolveResult where
  newMap : VisibilityMap
  correctState : Vis
  tasks : List (String × TaskResult)
  actions : List RemoteAction
  rejected : Bool
  deriving Repr

/-- Sequential run of the per-room tasks of `solveVisibility` (all tasks only
touch their own `roomVisibilities[roomId]` key, so the interleaving of the
concurrently started promises is immaterial). -/
def runRoomTasks (currentStates : String → Vis) (correct : Vis) :
    List String → VisibilityMap → List (String × TaskResult) × List RemoteAction × VisibilityMap
  | [], vm => ([], [], vm)
  | roomId :: rest, vm =>
    let r := perRoomTask vm (currentStates roomId) correct roomId
    let tail := runRoomTasks currentStates correct rest r.2.2
    ((roomId, r.1) :: tail.1, r.2.1 ++ tail.2.1, tail.2.2)

/-- Source: `PublicitySyncer.solveVisibility(channel, server)`:
resolves the rooms for the channel, resets `this.visibilityMap.mappings` to
`{}`, pushes the reverse `networkToRooms` mapping, derives `currentStates`
(default `"private"`, overridden by the store's `getRoomsVisibility`),
computes `correctState` from `this.visibilityMap.channelIsSecret[channel]`
(JS truthiness: an absent key or a `false` entry both give `'public'`), and
runs the per-room update tasks under `Promise.all`.
`pushNetworkToRooms` is the body of the `roomIds.forEach` that only fills the
reverse `networkToRooms` index (and, notably, not `mappings`). -/
def pushNetworkToRooms (key : String) (acc : VisibilityMap) (roomId : String) :
    VisibilityMap :=
  { acc with networkToRooms :=
      (setAssoc acc.networkToRooms key
        (((acc.networkToRooms.lookup key).getD []) ++ [roomId])) }

def solveVisibility (vm : VisibilityMap) (store : Store) (server : IrcServer)
    (channel : String) : SolveResult :=
  let roomIds := getMatrixRoomsForChannel store server channel
  let vm1 : VisibilityMap := { vm with mappings := [] }
  let key := getIRCVisMapKey server.networkId channel
  let vm2 := roomIds.foldl (pushNetworkToRooms key) vm1
  let currentStates : String → Vis := fun r => (store.roomVis.lookup r).getD Vis.priv
  let correct : Vis :=
    match vm2.channelIsSecret.lookup channel with
    | some true => Vis.priv
    | _ => Vis.pub
  let run := runRoomTasks currentStates correct roomIds vm2
  { newMap := run.2.2
    correctState := correct
    tasks := run.1
    actions := run.2.1
    rejected := run.1.any (fun t => t.2 == TaskResult.errored) }

/-- The `value` argument of `updateVisibilityMap` is loosely typed in the
source (`boolean` for modes, `"private" | "public"` strings for room
visibility); the function checks `typeof` at runtime. -/
inductive JsVal
  | bool (b : Bool)
  | str (s : String)
  deriving DecidableEq, Repr

/-- What became of one `updateVisibilityMap` call: it threw synchronously on a
type check, returned without change, or triggered `solveVisibility` whose
promise either fulfilled or was rejected-and-logged by the attached
`.catch`. -/
inductive UpdateOutcome
  | threw
  | unchanged
  | solvedOk
  | loggedSolveError
  deriving DecidableEq, Repr

/-- Source: `PublicitySyncer.updateVisibilityMap(isMode, key, value, channel, server)`:
updates `channelIsSecret[key]` (mode) or `roomVisibilities[key]` (room
visibility) and, when the cached value changed, runs `solveVisibility` with a
`.catch` that only logs the error. -/
def updateVisibilityMap (vm : VisibilityMap) (store : Store) (isMode : Bool)
    (key : String) (value : JsVal) (channel : String) (server : IrcServer) :
    VisibilityMap × List RemoteAction × UpdateOutcome :=
  if isMode then
    match value with
    | JsVal.str _ => (vm, [], UpdateOutcome.threw)
    | JsVal.bool b =>
      if vm.channelIsSecret.lookup key ≠ some b then
        let vm' := { vm with channelIsSecret := setAssoc vm.channelIsSecret key b }
        let res := solveVisibility vm' store server channel
        (res.newMap, res.actions,
         if res.rejected then UpdateOutcome.loggedSolveError else UpdateOutcome.solvedOk)
      else
        (vm, [], UpdateOutcome.unchanged)
  else
    match value with
    | JsVal.bool _ => (vm, [], UpdateOutcome.threw)
    | JsVal.str s =>
      if s ≠ "private" ∧ s ≠ "public" then (vm, [], UpdateOutcome.threw)
      else
        let v : Vis := if s == "private" then Vis.priv else Vis.pub
        if vm.roomVisibilities.lookup key ≠ some v then
          let vm' := { vm with roomVisibilities := setAssoc vm.roomVisibilities key v }
          let res := solveVisibility vm' store server channel
          (res.newMap, res.actions,
           if res.rejected then UpdateOutcome.loggedSolveError else UpdateOutcome.solvedOk)
        else
          (vm, [], UpdateOutcome.unchanged)

/-- An initially empty visibility map, as constructed in the class field
initializer. -/
def emptyVisibilityMap : VisibilityMap :=
  { mappings := [], networkToRooms := [], channelIsSecret := [], roomVisibilities := [] }

/-! ### MembershipQueue (both copies in the repository)

`src/util/MembershipQueue.ts` and the second copy of the class elsewhere in
the repository share `ATTEMPTS_LIMIT = 10` and an identical `shouldRetry`;
they differ in the re-enqueue on a retryable failure: the first re-enqueues
`{...item, attempts: item.attempts + 1}`, the second re-enqueues `item`
unchanged. -/

/-- The fields of the exception object consulted by `shouldRetry` and the
catch block: `ex.errcode` and `ex.httpStatus` (possibly absent). -/
structure MQError where
  errcode : String
  httpStatus : Option Int
  deriving DecidableEq, Repr

/-- Constant `ATTEMPTS_LIMIT` in both MembershipQueue files. -/
def ATTEMPTS_LIMIT : Nat := 10

/-- Source: `MembershipQueue.shouldRetry(ex, attempts)`, identical in both copies:
`!(attempts === ATTEMPTS_LIMIT || ex.errcode === "M_FORBIDDEN" ||
ex.httpStatus === 403)`. -/
def shouldRetry (ex : MQError) (attempts : Nat) : Bool :=
  !(attempts == ATTEMPTS_LIMIT || ex.errcode == "M_FORBIDDEN" ||
    ex.httpStatus == some 403)

/-- What one `serviceQueue` invocation does with an item whose remote
membership call failed with `ex`: rethrow (terminal) or re-enqueue with the
given attempt count. -/
inductive ServiceOutcome
  | thrown
  | reenqueued (nextAttempts : Nat)
  deriving DecidableEq, Repr

/-- The catch block of `serviceQueue` in `src/util/MembershipQueue.ts`, for an
item whose join/leave call failed with `ex`: on `shouldRetry` it re-enqueues
`{...item, attempts: item.attempts + 1}`, otherwise it throws. -/
def serviceQueueStepA (ex : MQError) (attempts : Nat) : ServiceOutcome :=
  if shouldRetry ex attempts then ServiceOutcome.reenqueued (attempts + 1)
  else ServiceOutcome.thrown

/-- The catch block of `serviceQueue` in the second MembershipQueue copy: on
`shouldRetry` it re-enqueues `item` itself, leaving `item.attempts`
unchanged, otherwise it throws. -/
def serviceQueueStepB (ex : MQError) (attempts : Nat) : ServiceOutcome :=
  if shouldRetry ex attempts then ServiceOutcome.reenqueued attempts
  else ServiceOutcome.thrown

/-- Number of re-enqueues performed when the remote call fails with `ex` on
every attempt, starting from the given attempt count, observing at most
`fuel` queue-service invocations. -/
def reenqueueCount (step : Nat → ServiceOutcome) : Nat → Nat → Nat
  | _, 0 => 0
  | attempts, fuel + 1 =>
    match step attempts with
    | ServiceOutcome.thrown => 0
    | ServiceOutcome.reenqueued a => 1 + reenqueueCount step a fuel

/-- A transient (retryable-class) failure: HTTP 500 with a generic errcode. -/
def exTransient : MQError := { errcode := "M_UNKNOWN", httpStatus := some 500 }

/-! ### IrcHandler: leave queue, kicks -/

/-- Constant `LEAVE_MAX_ATTEMPTS` in IrcHandler. -/
def LEAVE_MAX_ATTEMPTS : Nat := 10

/-- The loosely-typed bag enqueued onto `this.leaveQueue` (see the constructor
comment in IrcHandler). `kickReason` and `deop` are optional fields; an absent
`kickReason` is `none`, an absent `deop` is falsy, i.e. `false`. The
`attempts` field starts absent and is defaulted by
`item.attempts = item.attempts || 0`, i.e. `0`. The enqueue key strings
(`chan + userId`, `item.id + item.attempts`) only select the queue-pool lane
and are not modelled. -/
structure LeaveItem where
  rooms : List String
  userId : String
  shouldKick : Bool
  kickReason : Option String
  retry : Bool
  deop : Bool
  attempts : Nat
  deriving DecidableEq, Repr

/-- Result of one remote membership call for one room: fulfilled, or rejected
with the `errcode` / `httpStatus` fields the catch block reads (either may be
absent on the exception object). -/
inductive CallResult
  | ok
  | err (errcode : Option String) (httpStatus : Option Int)
  deriving DecidableEq, Repr

/-- A room-side membership call issued by `handleLeaveQueue`:
`bridge.getIntent().kick(roomId, item.userId, item.kickReason)` (the bot
kicks) or `bridge.getIntent(item.userId).leave(roomId)` (the user's own
intent leaves). -/
inductive RoomSideCall
  | kick (roomId userId : String) (reason : Option String)
  | leave (roomId userId : String)
  deriving DecidableEq, Repr

/-- Discriminator: true for a bot kick call, false for a leave call. -/
def isKickCall : RoomSideCall → Bool
  | RoomSideCall.kick _ _ _ => true
  | RoomSideCall.leave _ _ => false

/-- Observable outcome of one `handleLeaveQueue(item)` invocation. `calls`
records every room-side kick/leave call in order; `retryRooms` is the final
contents of the local `retryRooms` array; `enqueues` lists the items
re-enqueued onto the leave queue (with the rooms array snapshotted at the
moment of the enqueue); `deadReturn` is true iff the
`if (retryRooms.length < 0) return;` branch was taken; `attemptsReturn` is
true iff the function returned through the `attempts >= LEAVE_MAX_ATTEMPTS`
branch. -/
structure LeaveRunState where
  attempts : Nat
  retryRooms : List String
  calls : List RoomSideCall
  enqueues : List LeaveItem
  deadReturn : Bool
  attemptsReturn : Bool
  deriving DecidableEq, Repr

/-- The `is400` test of the catch block:
`ex.httpStatus - 400 > 0 && ex.httpStatus - 400 < 100`. In JS an absent
`httpStatus` gives `NaN`, whose comparisons are false. -/
def leaveIs400 (httpStatus : Option Int) : Bool :=
  match httpStatus with
  | none => false
  | some s => decide (s - 400 > 0) && decide (s - 400 < 100)

/-- The tail of each loop iteration of `handleLeaveQueue`, reached after a
successful call or after a retryable failure pushed the room (a terminal
failure `continue`s past it): the dead `retryRooms.length < 0` early return,
the delay, `item.attempts++`, the attempt-ceiling return, and the re-enqueue
of `{...item, rooms: retryRooms}`. Returns the updated state and whether the
loop should keep going (`false` on either `return`). -/
def leaveLoopTail (item : LeaveItem) (st : LeaveRunState) : LeaveRunState × Bool :=
  if (st.retryRooms.length : Int) < 0 then
    ({ st with deadReturn := true }, false)
  else
    let st := { st with attempts := st.attempts + 1 }
    if st.attempts ≥ LEAVE_MAX_ATTEMPTS then
      ({ st with attemptsReturn := true }, false)
    else
      ({ st with enqueues :=
          st.enqueues ++
            [{ item with rooms := st.retryRooms, attempts := st.attempts }] },
       true)

/-- The `for (const room of item.rooms)` loop of
`IrcHandler.handleLeaveQueue`. The `deop` power-level removal is wrapped in
its own try/catch that only logs, so it has no effect on control flow and is
not recorded. -/
def handleLeaveLoop (env : String → CallResult) (item : LeaveItem) :
    List String → LeaveRunState → LeaveRunState
  | [], st => st
  | roomId :: rest, st =>
    let call :=
      if item.shouldKick then RoomSideCall.kick roomId item.userId item.kickReason
      else RoomSideCall.leave roomId item.userId
    let st1 := { st with calls := st.calls ++ [call] }
    match env roomId with
    | CallResult.ok =>
      let t := leaveLoopTail item st1
      if t.2 then handleLeaveLoop env item rest t.1 else t.1
    | CallResult.err errcode httpStatus =>
      if !item.retry || errcode == some "M_FORBIDDEN" || leaveIs400 httpStatus then
        handleLeaveLoop env item rest st1
      else
        let t := leaveLoopTail item { st1 with retryRooms := st1.retryRooms ++ [roomId] }
        if t.2 then handleLeaveLoop env item rest t.1 else t.1

/-- Source: `IrcHandler.handleLeaveQueue(item)`: initialises
`item.attempts = item.attempts || 0`, an empty `retryRooms`, and runs the
room loop. `env` gives the result of the remote kick/leave call per room. -/
def handleLeaveQueue (env : String → CallResult) (item : LeaveItem) : LeaveRunState :=
  handleLeaveLoop env item item.rooms
    { attempts := item.attempts, retryRooms := [], calls := [], enqueues := [],
      deadReturn := false, attemptsReturn := false }

/-- An IRC user as consulted by `onKick`: its nick and whether it is one of
the bridge's own virtual clients. -/
structure IrcUser where
  nick : String
  isVirtual : Bool
  deriving DecidableEq, Repr

/-- Result of `getBridgedClientByNick`: the bridged client's Matrix user id and
whether it is the bot. -/
structure BridgedClient where
  userId : String
  isBot : Bool
  deriving DecidableEq, Repr

/-- The collaborators `onKick` consults: the store (room mappings), the
client pool lookup for the kickee's nick, and `getMatrixUser` for a real IRC
kickee (its virtual Matrix user id). -/
structure OnKickEnv where
  store : Store
  bridgedClient : Option BridgedClient
  ghostUserId : String
  deriving Repr

/-- What `onKick` did: returned early (no mapped rooms / unexpected client),
or enqueued a leave-queue item. -/
inductive OnKickResult
  | noMappedRooms
  | bail
  | enqueued (item : LeaveItem)
  deriving DecidableEq, Repr

/-- Source: `IrcHandler.onKick(req, server, kicker, kickee, chan, reason)`. For a
virtual kickee (IRC-on-Matrix kicking) it enqueues
`{rooms, userId, shouldKick: true, kickReason, retry: true}`; for a real IRC
kickee it enqueues `{rooms, userId, shouldKick: false, retry: true,
deop: true}`. -/
def onKick (env : OnKickEnv) (server : IrcServer) (kicker kickee : IrcUser)
    (chan reason : String) : OnKickResult :=
  if kickee.isVirtual then
    let matrixRooms := getMatrixRoomsForChannel env.store server chan
    if matrixRooms.isEmpty then OnKickResult.noMappedRooms
    else
      match env.bridgedClient with
      | none => OnKickResult.bail
      | some c =>
        if c.isBot then OnKickResult.bail
        else
          OnKickResult.enqueued
            { rooms := matrixRooms
              userId := c.userId
              shouldKick := true
              kickReason := some (kicker.nick ++ " has kicked this user from " ++
                chan ++ " (" ++ reason ++ ")")
              retry := true
              deop := false
              attempts := 0 }
  else
    let matrixRooms := getMatrixRoomsForChannel env.store server chan
    if matrixRooms.isEmpty then OnKickResult.noMappedRooms
    else
      OnKickResult.enqueued
        { rooms := matrixRooms
          userId := env.ghostUserId
          shouldKick := false
          kickReason := none
          retry := true
          deop := true
          attempts := 0 }

/-! ### IrcHandler: topic queue -/

/-- One entry of the mapping list handed to `serviceTopicQueue`: a matrix
room and its cached topic (`entry.matrix.topic`, possibly undefined). -/
structure TopicEntry where
  roomId : String
  topic : Option String
  deriving DecidableEq, Repr

/-- A remote `setRoomTopic(roomId, topic)` call; `asBot` marks the fallback
retry through the bridge's own (privileged) intent. -/
structure TopicCall where
  roomId : String
  topic : String
  asBot : Bool
  deriving DecidableEq, Repr

/-- Source: `IrcHandler.serviceTopicQueue(item)`: for each entry, if
`entry.matrix.topic === item.topic` it resolves without a remote call;
otherwise it calls `setRoomTopic` as the sending user, falls back to the
default (bot) intent on rejection, and on success stores the new topic on the
entry (`entry.matrix.topic = item.topic` followed by `upsertMatrixRoom`); a
failure of the fallback is only logged. `firstOk`/`secondOk` give the result
of the two possible remote calls per room. Returns the updated entries and
the remote topic-set calls issued, in entry order. -/
def serviceTopicQueue (firstOk secondOk : String → Bool) (topic : String) :
    List TopicEntry → List TopicEntry × List TopicCall
  | [] => ([], [])
  | e :: rest =>
    let tail := serviceTopicQueue firstOk secondOk topic rest
    if e.topic == some topic then
      (e :: tail.1, tail.2)
    else
      if firstOk e.roomId then
        ({ e with topic := some topic } :: tail.1,
         TopicCall.mk e.roomId topic false :: tail.2)
      else if secondOk e.roomId then
        ({ e with topic := some topic } :: tail.1,
         TopicCall.mk e.roomId topic false :: TopicCall.mk e.roomId topic true :: tail.2)
      else
        (e :: tail.1,
         TopicCall.mk e.roomId topic false :: TopicCall.mk e.roomId topic true :: tail.2)

/-! ### IrcHandler: PM room creation guard -/

/-- The state of one entry of `this.pmRoomPromises`: still pending (tagged
with the index of the room-creation call that produced it, so that two
readers of the same entry awaiting the same promise can be recognised),
resolved to a room, or rejected. -/
inductive PromiseState
  | pending (creationIdx : Nat)
  | resolvedRoom (roomId : String)
  | rejected
  deriving DecidableEq, Repr

/-- The mutable state consulted by the PM-room path of `onPrivateMessage`:
the `pmRoomPromises` map and a count of `createPmRoom` invocations. -/
structure PmState where
  promises : List (String × PromiseState)
  createCalls : Nat
  deriving DecidableEq, Repr

/-- What the PM-room path produced for one message: the room found in the
store, or the promise (by key and state) the message awaits for the room. -/
inductive PmRoomSource
  | storeRoom (roomId : String)
  | awaited (key : String) (p : PromiseState)
  deriving DecidableEq, Repr

/-- The PM-room resolution step of `IrcHandler.onPrivateMessage` for a message
between a given pair: `storeRoom` is the store's
`getMatrixPmRoom(toUserId, fromUserId)` answer and
`key = bridgedIrcClient.userId + ' ' + virtualMatrixUser.getId()` is the
`pmRoomPromiseId`. If the store has no room and no promise exists for the key
(or the existing one is rejected), `createPmRoom` is invoked and its promise
stored; otherwise the existing promise is awaited. The lookup, check and
store of the promise are synchronous (no `await` between them). -/
def pmRoomStep (storeRoom : Option String) (key : String) (st : PmState) :
    PmState × PmRoomSource :=
  match storeRoom with
  | some r => (st, PmRoomSource.storeRoom r)
  | none =>
    match st.promises.lookup key with
    | some p =>
      match p with
      | PromiseState.rejected =>
        let fresh := PromiseState.pending st.createCalls
        ({ promises := setAssoc st.promises key fresh,
           createCalls := st.createCalls + 1 },
         PmRoomSource.awaited key fresh)
      | _ => (st, PmRoomSource.awaited key p)
    | none =>
      let fresh := PromiseState.pending st.createCalls
      ({ promises := setAssoc st.promises key fresh,
         createCalls := st.createCalls + 1 },
       PmRoomSource.awaited key fresh)

/-! ### IrcHandler: nick to user id mention cache -/

/-- Constant `NICK_USERID_CACHE_MAX` in IrcHandler. -/
def NICK_USERID_CACHE_MAX : Nat := 512

/-- The `mapIrcMentionsToMatrix` setting ("on" | "off" | "force-off"). -/
inductive MentionMode
  | modeOn
  | modeOff
  | forceOff
  deriving DecidableEq, Repr

/-- Cache `this.nickUserIdMapCache` is a JS `Map` keyed by
`server.domain + ":" + channel`; modelled as an insertion-ordered association
list (`Map.set` of a new key appends, of an existing key updates in place).
The mapping values are irrelevant to the cache-size behaviour and kept
abstract. -/
def mapSet {α : Type} (cache : List (String × α)) (k : String) (v : α) :
    List (String × α) :=
  setAssoc cache k v

/-- The expression `this.nickUserIdMapCache.keys()[0]` from `onMessage`:
`Map.prototype.keys()` returns an iterator object, not an array, and an
iterator has no numeric properties, so indexing it with `[0]` yields
`undefined` whatever the cache contains. -/
def mapKeysIndexZero {α : Type} (_cache : List (String × α)) : Option String :=
  none

/-- JS `Map.prototype.delete(k)` where `k` may be `undefined` (`none`): every key
in the cache is a string, so deleting `undefined` removes nothing. -/
def mapDelete {α : Type} (cache : List (String × α)) (k : Option String) :
    List (String × α) :=
  match k with
  | none => cache
  | some s => cache.filter (fun p => !(p.1 == s))

/-- The mention-map portion of `IrcHandler.onMessage` for channel key
`server.domain + ":" + channel`: use the cached mapping if present; otherwise
(unless the mention mode is "force-off") compute a mapping, `set` it into the
cache, and if the cache size now exceeds `NICK_USERID_CACHE_MAX` delete
`this.nickUserIdMapCache.keys()[0]`. Returns the cache after the pass. -/
def onMessageCachePass {α : Type} (mode : MentionMode)
    (cache : List (String × α)) (key : String) (mapping : α) :
    List (String × α) :=
  if (cache.lookup key).isSome then
    cache
  else if mode ≠ MentionMode.forceOff then
    let cache1 := mapSet cache key mapping
    if cache1.length > NICK_USERID_CACHE_MAX then
      mapDelete cache1 (mapKeysIndexZero cache1)
    else
      cache1
  else
    cache

end Bridge


/-! ## Helper lemmas -/

namespace Bridge

theorem any_key_eq_false_of_lookup_none {α : Type} (k : String) :
    ∀ (l : List (String × α)), l.lookup k = none →
      l.any (fun p => p.1 == k) = false := by
  intro l
  induction l with
  | nil => intro _; rfl
  | cons p rest ih =>
    intro h
    rw [List.lookup] at h
    cases hk : (k == p.1) with
    | true => rw [hk] at h; exact absurd h (by simp)
    | false =>
      rw [hk] at h
      have hpk : (p.1 == k) = false := by
        simp only [beq_eq_false_iff_ne] at hk ⊢
        exact fun he => hk he.symm
      simp [List.any_cons, hpk, ih h]

theorem setAssoc_length_of_lookup_none {α : Type} (l : List (String × α))
    (k : String) (v : α) (h : l.lookup k = none) :
    (setAssoc l k v).length = l.length + 1 := by
  unfold setAssoc
  rw [any_key_eq_false_of_lookup_none k l h]
  simp

theorem lookup_append_single {α : Type} (k : String) (v : α) :
    ∀ (l : List (String × α)), l.any (fun p => p.1 == k) = false →
      (l ++ [(k, v)]).lookup k = some v := by
  intro l
  induction l with
  | nil => intro _; simp [List.lookup]
  | cons p rest ih =>
    intro h
    simp only [List.any_cons, Bool.or_eq_false_iff] at h
    have hk : (k == p.1) = false := by
      simp only [beq_eq_false_iff_ne] at h ⊢
      exact fun he => h.1 he.symm
    rw [List.cons_append, List.lookup, hk]
    exact ih h.2

theorem lookup_map_overwrite {α : Type} (k : String) (v : α) :
    ∀ (l : List (String × α)), l.any (fun p => p.1 == k) = true →
      (l.map (fun p => if p.1 == k then (k, v) else p)).lookup k = some v := by
  intro l
  induction l with
  | nil => intro h; exact absurd h (by simp)
  | cons p rest ih =>
    intro h
    cases hpk : (p.1 == k) with
    | true =>
      simp only [List.map_cons, hpk, if_pos]
      rw [List.lookup]
      simp
    | false =>
      have hk : (k == p.1) = false := by
        simp only [beq_eq_false_iff_ne] at hpk ⊢
        exact fun he => hpk he.symm
      simp only [List.map_cons, hpk]
      rw [if_neg (by simp [hpk]), List.lookup, hk]
      apply ih
      simpa [List.any_cons, hpk] using h

theorem lookup_setAssoc {α : Type} (l : List (String × α)) (k : String) (v : α) :
    (setAssoc l k v).lookup k = some v := by
  unfold setAssoc
  cases h : l.any (fun p => p.1 == k) with
  | true => simpa using lookup_map_overwrite k v l h
  | false => simpa using lookup_append_single k v l h

end Bridge

namespace Bridge

theorem leaveLoopTail_guard_false (st : LeaveRunState) :
    ¬ ((st.retryRooms.length : Int) < 0) := by
  omega

theorem leaveLoopTail_deadReturn (item : LeaveItem) (st : LeaveRunState) :
    (leaveLoopTail item st).1.deadReturn = st.deadReturn := by
  unfold leaveLoopTail
  rw [if_neg (leaveLoopTail_guard_false st)]
  dsimp only
  split <;> rfl

theorem leaveLoopTail_retryRooms (item : LeaveItem) (st : LeaveRunState) :
    (leaveLoopTail item st).1.retryRooms = st.retryRooms := by
  unfold leaveLoopTail
  rw [if_neg (leaveLoopTail_guard_false st)]
  dsimp only
  split <;> rfl

theorem leaveLoopTail_enqueues (item : LeaveItem) (st : LeaveRunState) :
    (leaveLoopTail item st).1.enqueues = st.enqueues ∨
    (leaveLoopTail item st).1.enqueues =
      st.enqueues ++ [{ item with rooms := st.retryRooms, attempts := st.attempts + 1 }] := by
  unfold leaveLoopTail
  rw [if_neg (leaveLoopTail_guard_false st)]
  dsimp only
  split
  · exact Or.inl rfl
  · exact Or.inr rfl

theorem handleLeaveLoop_deadReturn (env : String → CallResult) (item : LeaveItem) :
    ∀ (rooms : List String) (st : LeaveRunState), st.deadReturn = false →
      (handleLeaveLoop env item rooms st).deadReturn = false := by
  intro rooms
  induction rooms with
  | nil => intro st h; exact h
  | cons r rest ih =>
    intro st h
    rw [handleLeaveLoop]
    cases henv : env r with
    | ok =>
      dsimp only
      cases ht : (leaveLoopTail item { st with calls := st.calls ++
          [if item.shouldKick then RoomSideCall.kick r item.userId item.kickReason
           else RoomSideCall.leave r item.userId] }).2 with
      | true =>
        rw [if_pos rfl]
        apply ih
        rw [leaveLoopTail_deadReturn]
        exact h
      | false =>
        rw [if_neg (by simp)]
        rw [leaveLoopTail_deadReturn]
        exact h
    | err errcode httpStatus =>
      dsimp only
      cases hterm : (!item.retry || errcode == some "M_FORBIDDEN" || leaveIs400 httpStatus) with
      | true =>
        rw [if_pos rfl]
        exact ih _ h
      | false =>
        rw [if_neg (by simp)]
        cases ht : (leaveLoopTail item _).2 with
        | true =>
          rw [if_pos rfl]
          apply ih
          rw [leaveLoopTail_deadReturn]
          exact h
        | false =>
          rw [if_neg (by simp)]
          rw [leaveLoopTail_deadReturn]
          exact h

end Bridge

namespace Bridge

theorem foldl_pushNetworkToRooms_mappings (key : String) :
    ∀ (roomIds : List String) (vm : VisibilityMap),
      (roomIds.foldl (pushNetworkToRooms key) vm).mappings = vm.mappings := by
  intro roomIds
  induction roomIds with
  | nil => intro vm; rfl
  | cons r rest ih =>
    intro vm
    rw [List.foldl_cons, ih]
    rfl

theorem runRoomTasks_of_mappings_nil (cs : String → Vis) (correct : Vis) :
    ∀ (rooms : List String) (vm : VisibilityMap), vm.mappings = [] →
      runRoomTasks cs correct rooms vm =
        (rooms.map (fun r => (r, TaskResult.errored)), [], vm) := by
  intro rooms
  induction rooms with
  | nil => intro vm _; rfl
  | cons r rest ih =>
    intro vm h
    rw [runRoomTasks]
    have hper : perRoomTask vm (cs r) correct r = (TaskResult.errored, [], vm) := by
      unfold perRoomTask
      rw [h]
      rfl
    rw [hper]
    dsimp only
    rw [ih vm h]
    simp

end Bridge

namespace Bridge

theorem solveVisibility_run (vm : VisibilityMap) (store : Store)
    (server : IrcServer) (channel : String) :
    (solveVisibility vm store server channel).tasks =
      (getMatrixRoomsForChannel store server channel).map
        (fun r => (r, TaskResult.errored)) ∧
    (solveVisibility vm store server channel).actions = [] ∧
    (solveVisibility vm store server channel).newMap.mappings = [] := by
  unfold solveVisibility
  dsimp only
  have hmap :
      ((getMatrixRoomsForChannel store server channel).foldl
        (pushNetworkToRooms (getIRCVisMapKey server.networkId channel))
        { vm with mappings := [] }).mappings = [] := by
    rw [foldl_pushNetworkToRooms_mappings]
  rw [runRoomTasks_of_mappings_nil _ _ _ _ hmap]
  exact ⟨rfl, rfl, hmap⟩

theorem solveVisibility_rejected (vm : VisibilityMap) (store : Store)
    (server : IrcServer) (channel : String)
    (h : getMatrixRoomsForChannel store server channel ≠ []) :
    (solveVisibility vm store server channel).rejected = true := by
  have hrej : (solveVisibility vm store server channel).rejected =
      ((solveVisibility vm store server channel).tasks.any
        (fun t => t.2 == TaskResult.errored)) := rfl
  rw [hrej, (solveVisibility_run vm store server channel).1]
  cases hrooms : getMatrixRoomsForChannel store server channel with
  | nil => exact absurd hrooms h
  | cons r rest => simp

end Bridge

/-! ## Claim theorems -/

namespace Bridge

/-- Claim C1 (visibility monotonicity), evaluated on the code at a failing
input. Room `!r` is mapped to both `#a` and `#b` on server `srv`; channel
`#b` is flagged secret in `channelIsSecret` (first scenario: under the bare
channel name; second scenario: channel `#c` flagged secret under the key
documented by `getIRCVisMapKey`). In both scenarios `solveVisibility`
computes a correct visibility of `public` for the room even though a channel
mapped to (indeed, the very channel of) the room is flagged secret, because
the code consults only `channelIsSecret[channel]` for the single triggering
channel, under the bare channel name. -/
theorem c1_secret_mapped_channel_still_computes_public :
    ("!r" ∈ getMatrixRoomsForChannel
        { mappings := [("srv", "#a", "!r"), ("srv", "#b", "!r")], roomVis := [] }
        { domain := "srv", networkId := "net" } "#a" ∧
     "!r" ∈ getMatrixRoomsForChannel
        { mappings := [("srv", "#a", "!r"), ("srv", "#b", "!r")], roomVis := [] }
        { domain := "srv", networkId := "net" } "#b" ∧
     List.lookup "#b" [("#b", true)] = some true ∧
     (solveVisibility
        { mappings := [], networkToRooms := [], channelIsSecret := [("#b", true)],
          roomVisibilities := [] }
        { mappings := [("srv", "#a", "!r"), ("srv", "#b", "!r")], roomVis := [] }
        { domain := "srv", networkId := "net" } "#a").correctState = Vis.pub) ∧
    (getIRCVisMapKey "net" "#c" = "net #c" ∧
     (solveVisibility
        { mappings := [], networkToRooms := [], channelIsSecret := [("net #c", true)],
          roomVisibilities := [] }
        { mappings := [("srv", "#c", "!r2")], roomVis := [] }
        { domain := "srv", networkId := "net" } "#c").correctState = Vis.pub) := by
  decide

/-- Claim C2 (fail-closed default), evaluated on the code at a failing input.
Channel `#chan` has no entry in `channelIsSecret` (its mode was never
observed), yet `solveVisibility` computes a correct visibility of `public`
(not `private`) for its mapped room: `channelIsSecret[channel]` is
`undefined`, which is falsy, so the ternary picks `'public'`. -/
theorem c2_unknown_channel_mode_computes_public :
    emptyVisibilityMap.channelIsSecret.lookup "#chan" = none ∧
    (solveVisibility emptyVisibilityMap
      { mappings := [("srv", "#chan", "!r")], roomVis := [] }
      { domain := "srv", networkId := "net" } "#chan").correctState = Vis.pub ∧
    (solveVisibility emptyVisibilityMap
      { mappings := [("srv", "#chan", "!r")], roomVis := [] }
      { domain := "srv", networkId := "net" } "#chan").correctState ≠ Vis.priv := by
  decide

/-- Claim C3: in every `solveVisibility` execution with at least one mapped
room, `mappings` has just been reset to `{}` and is never repopulated, so the
per-room task's `this.visibilityMap.mappings[roomId][0]` dereference throws
for every mapped room before any directory-visibility update or store write
is issued, the returned `Promise.all` rejects, and the triggering
`updateVisibilityMap` call catches and only logs the rejection (outcome
`loggedSolveError`, not a throw) while issuing no remote actions. -/
theorem c3_solveVisibility_tasks_all_error_and_logged
    (vm : VisibilityMap) (store : Store) (server : IrcServer)
    (channel key : String) (b : Bool)
    (hrooms : getMatrixRoomsForChannel store server channel ≠ [])
    (hchanged : vm.channelIsSecret.lookup key ≠ some b) :
    (solveVisibility vm store server channel).newMap.mappings = [] ∧
    (∀ t ∈ (solveVisibility vm store server channel).tasks,
        t.2 = TaskResult.errored) ∧
    (solveVisibility vm store server channel).actions = [] ∧
    (solveVisibility vm store server channel).rejected = true ∧
    (updateVisibilityMap vm store true key (JsVal.bool b) channel server).2.2 =
      UpdateOutcome.loggedSolveError ∧
    (updateVisibilityMap vm store true key (JsVal.bool b) channel server).2.1 = [] := by
  obtain ⟨htasks, hactions, hmaps⟩ := solveVisibility_run vm store server channel
  refine ⟨hmaps, ?_, hactions, solveVisibility_rejected vm store server channel hrooms, ?_, ?_⟩
  · intro t ht
    rw [htasks] at ht
    obtain ⟨r, _, hr⟩ := List.mem_map.mp ht
    rw [← hr]
  · unfold updateVisibilityMap
    rw [if_pos rfl]
    dsimp only
    rw [if_pos hchanged]
    dsimp only
    rw [solveVisibility_rejected _ store server channel hrooms]
    rfl
  · unfold updateVisibilityMap
    rw [if_pos rfl]
    dsimp only
    rw [if_pos hchanged]
    dsimp only
    exact (solveVisibility_run _ store server channel).2.1

/-- Witness for C3 at a concrete input: one mapped room, a fresh secret flag
for the documented key. -/
theorem c3_solveVisibility_tasks_all_error_and_logged_witness :
    (getMatrixRoomsForChannel { mappings := [("srv", "#c", "!r")], roomVis := [] }
        { domain := "srv", networkId := "net" } "#c" ≠ []) ∧
    (emptyVisibilityMap.channelIsSecret.lookup "net #c" ≠ some true) ∧
    (updateVisibilityMap emptyVisibilityMap
        { mappings := [("srv", "#c", "!r")], roomVis := [] }
        true "net #c" (JsVal.bool true) "#c"
        { domain := "srv", networkId := "net" }).2.2 =
      UpdateOutcome.loggedSolveError :=
  ⟨by decide, by decide,
   (c3_solveVisibility_tasks_all_error_and_logged emptyVisibilityMap
      { mappings := [("srv", "#c", "!r")], roomVis := [] }
      { domain := "srv", networkId := "net" } "#c" "net #c" true
      (by decide) (by decide)).2.2.2.2.1⟩

end Bridge

namespace Bridge

/-- Claim C4 (retry ceiling), evaluated on both MembershipQueue copies for an
item failing every attempt with a transient error (HTTP 500). The copy in
`src/util/MembershipQueue.ts` (`serviceQueueStepA`) re-enqueues with an
incremented attempt count and stops after exactly 10 re-enqueues (even
observed with far more fuel). The second copy (`serviceQueueStepB`)
re-enqueues the item with its attempt count unchanged, so `attempts` never
reaches `ATTEMPTS_LIMIT` and an 11th re-enqueue occurs, contradicting the
ceiling. A permission-denial failure (errcode `M_FORBIDDEN` or HTTP 403) is
never retried in either copy. -/
theorem c4_retry_ceiling_divergence :
    reenqueueCount (serviceQueueStepA exTransient) 0 1000 = 10 ∧
    reenqueueCount (serviceQueueStepB exTransient) 0 11 = 11 ∧
    (∀ (a : Nat) (hs : Option Int),
      serviceQueueStepA { errcode := "M_FORBIDDEN", httpStatus := hs } a =
        ServiceOutcome.thrown) ∧
    (∀ (a : Nat) (c : String),
      serviceQueueStepA { errcode := c, httpStatus := some 403 } a =
        ServiceOutcome.thrown) ∧
    (∀ (a : Nat) (hs : Option Int),
      serviceQueueStepB { errcode := "M_FORBIDDEN", httpStatus := hs } a =
        ServiceOutcome.thrown) ∧
    (∀ (a : Nat) (c : String),
      serviceQueueStepB { errcode := c, httpStatus := some 403 } a =
        ServiceOutcome.thrown) := by
  refine ⟨by decide, by decide, ?_, ?_, ?_, ?_⟩ <;>
    intro a x <;>
    simp [serviceQueueStepA, serviceQueueStepB, shouldRetry]

set_option maxRecDepth 40000 in
/-- Claim C9 (bounded mention cache), evaluated on the code at a failing
input: a cache already holding 512 distinct channel keys receives a message
for a new channel key `x`. The insertion takes the size to 513 and the
eviction `delete(this.nickUserIdMapCache.keys()[0])` deletes `undefined`
(indexing an iterator), removing nothing, so the cache ends the pass at 513
entries: no existing entry is removed and the 512 bound is not restored. -/
theorem c9_mention_cache_never_evicts :
    ((List.range 512).map (fun i => (toString i, 0))).length = 512 ∧
    ((List.range 512).map (fun i => (toString i, 0))).lookup "x" = none ∧
    (onMessageCachePass MentionMode.modeOn
      ((List.range 512).map (fun i => (toString i, 0))) "x" 0).length = 513 := by
  refine ⟨by decide, by decide, by decide⟩

/-- Claim C10: in every execution of `handleLeaveQueue`, the guard
`retryRooms.length < 0` evaluates to false (an array length is never
negative), so the early return it protects is unreachable: the run never
ends through that branch. -/
theorem c10_dead_branch_unreachable (env : String → CallResult)
    (item : LeaveItem) (st : LeaveRunState) :
    decide ((st.retryRooms.length : Int) < 0) = false ∧
    (handleLeaveQueue env item).deadReturn = false :=
  ⟨decide_eq_false (leaveLoopTail_guard_false st),
   handleLeaveLoop_deadReturn env item item.rooms _ rfl⟩

end Bridge

namespace Bridge

theorem leaveLoopTail_calls (item : LeaveItem) (st : LeaveRunState) :
    (leaveLoopTail item st).1.calls = st.calls := by
  unfold leaveLoopTail
  rw [if_neg (leaveLoopTail_guard_false st)]
  dsimp only
  split <;> rfl

theorem leaveLoopTail_enqueues_shouldKick (item : LeaveItem) (st : LeaveRunState)
    (hk : item.shouldKick = true)
    (h : ∀ e ∈ st.enqueues, e.shouldKick = true) :
    ∀ e ∈ (leaveLoopTail item st).1.enqueues, e.shouldKick = true := by
  rcases leaveLoopTail_enqueues item st with he | he <;> rw [he]
  · exact h
  · intro e hm
    rcases List.mem_append.mp hm with hh | hh
    · exact h e hh
    · rw [List.mem_singleton] at hh
      subst hh
      exact hk

theorem handleLeave_kick_branch_aux (env : String → CallResult) (item : LeaveItem)
    (rest : List String)
    (ih : ∀ st : LeaveRunState,
      (∀ c ∈ st.calls, isKickCall c = true) →
      (∀ e ∈ st.enqueues, e.shouldKick = true) →
      (∀ c ∈ (handleLeaveLoop env item rest st).calls, isKickCall c = true) ∧
      (∀ e ∈ (handleLeaveLoop env item rest st).enqueues, e.shouldKick = true))
    (hk : item.shouldKick = true) (st : LeaveRunState)
    (h1 : ∀ c ∈ st.calls, isKickCall c = true)
    (h2 : ∀ e ∈ st.enqueues, e.shouldKick = true) :
    (∀ c ∈ (if (leaveLoopTail item st).2 = true
        then handleLeaveLoop env item rest (leaveLoopTail item st).1
        else (leaveLoopTail item st).1).calls, isKickCall c = true) ∧
    (∀ e ∈ (if (leaveLoopTail item st).2 = true
        then handleLeaveLoop env item rest (leaveLoopTail item st).1
        else (leaveLoopTail item st).1).enqueues, e.shouldKick = true) := by
  have hc : ∀ c ∈ (leaveLoopTail item st).1.calls, isKickCall c = true := by
    rw [leaveLoopTail_calls]
    exact h1
  have he : ∀ e ∈ (leaveLoopTail item st).1.enqueues, e.shouldKick = true :=
    leaveLoopTail_enqueues_shouldKick item st hk h2
  cases ht : (leaveLoopTail item st).2 with
  | true =>
    rw [if_pos rfl]
    exact ih _ hc he
  | false =>
    rw [if_neg (by simp)]
    exact ⟨hc, he⟩

theorem handleLeaveLoop_shouldKick (env : String → CallResult) (item : LeaveItem)
    (hk : item.shouldKick = true) :
    ∀ (rooms : List String) (st : LeaveRunState),
      (∀ c ∈ st.calls, isKickCall c = true) →
      (∀ e ∈ st.enqueues, e.shouldKick = true) →
      (∀ c ∈ (handleLeaveLoop env item rooms st).calls, isKickCall c = true) ∧
      (∀ e ∈ (handleLeaveLoop env item rooms st).enqueues, e.shouldKick = true) := by
  intro rooms
  induction rooms with
  | nil =>
    intro st h1 h2
    exact ⟨h1, h2⟩
  | cons r rest ih =>
    intro st h1 h2
    have hinv1 : ∀ c ∈ st.calls ++
        [if item.shouldKick = true then RoomSideCall.kick r item.userId item.kickReason
         else RoomSideCall.leave r item.userId], isKickCall c = true := by
      intro c hcm
      rcases List.mem_append.mp hcm with h | h
      · exact h1 c h
      · rw [List.mem_singleton] at h
        subst h
        rw [hk]
        simp [isKickCall]
    rw [handleLeaveLoop]
    cases henv : env r with
    | ok =>
      exact handleLeave_kick_branch_aux env item rest ih hk _ hinv1 h2
    | err errcode httpStatus =>
      dsimp only
      cases hterm : (!item.retry || errcode == some "M_FORBIDDEN" || leaveIs400 httpStatus) with
      | true =>
        rw [if_pos rfl]
        exact ih _ hinv1 h2
      | false =>
        rw [if_neg (by simp)]
        exact handleLeave_kick_branch_aux env item rest ih hk _ hinv1 h2

end Bridge

namespace Bridge

/-- Claim C5 as stated is false on the code: at a concrete kick from the
channel network whose kickee is a relayed-local (virtual) identity, `onKick`
enqueues the departure with `shouldKick: true`, and the leave queue then
issues a bot `kick` call on the room side, not a `leave` call (this matches
the repository's own kicking integration test, which expects the AS bot to
kick the Matrix user). -/
theorem c5_virtual_kickee_counterexample :
    onKick
      { store := { mappings := [("srv", "#c", "!r")], roomVis := [] },
        bridgedClient := some { userId := "@bob:hs", isBot := false },
        ghostUserId := "@g" }
      { domain := "srv", networkId := "net" }
      { nick := "alice", isVirtual := false }
      { nick := "M-bob", isVirtual := true }
      "#c" "Reasons" =
      OnKickResult.enqueued
        { rooms := ["!r"], userId := "@bob:hs", shouldKick := true,
          kickReason := some "alice has kicked this user from #c (Reasons)",
          retry := true, deop := false, attempts := 0 } ∧
    (handleLeaveQueue (fun _ => CallResult.ok)
        { rooms := ["!r"], userId := "@bob:hs", shouldKick := true,
          kickReason := some "alice has kicked this user from #c (Reasons)",
          retry := true, deop := false, attempts := 0 }).calls =
      [RoomSideCall.kick "!r" "@bob:hs"
        (some "alice has kicked this user from #c (Reasons)")] := by
  refine ⟨by decide, by decide⟩

/-- Claim C5 amended: for every kick received from the channel network where
the kickee is a relayed-local (virtual) identity, `onKick` enqueues the
departure with `shouldKick = true`, and every room-side membership call the
leave queue issues for that item is a bot kick call (never a leave call);
every re-enqueued retry item keeps `shouldKick = true` as well. -/
theorem c5_amended_virtual_kickee_is_kicked (env : OnKickEnv) (server : IrcServer)
    (kicker kickee : IrcUser) (chan reason : String) (item : LeaveItem)
    (callEnv : String → CallResult)
    (hv : kickee.isVirtual = true)
    (henq : onKick env server kicker kickee chan reason = OnKickResult.enqueued item) :
    item.shouldKick = true ∧
    (∀ c ∈ (handleLeaveQueue callEnv item).calls, isKickCall c = true) ∧
    (∀ e ∈ (handleLeaveQueue callEnv item).enqueues, e.shouldKick = true) := by
  have hk : item.shouldKick = true := by
    unfold onKick at henq
    dsimp only at henq
    split at henq
    · split at henq
      · exact absurd henq (by simp)
      · split at henq
        · exact absurd henq (by simp)
        · split at henq
          · exact absurd henq (by simp)
          · cases henq
            rfl
    · rename_i hnv
      exact absurd hv hnv
  have hmain := handleLeaveLoop_shouldKick callEnv item hk item.rooms
    { attempts := item.attempts, retryRooms := [], calls := [], enqueues := [],
      deadReturn := false, attemptsReturn := false }
    (by intro c hc; exact absurd hc (List.not_mem_nil c))
    (by intro e he; exact absurd he (List.not_mem_nil e))
  exact ⟨hk, hmain.1, hmain.2⟩

/-- Witness for the amended C5 at a concrete kick. -/
theorem c5_amended_virtual_kickee_is_kicked_witness :
    (IrcUser.mk "M-bob" true).isVirtual = true ∧
    onKick
      { store := { mappings := [("srv", "#c", "!r")], roomVis := [] },
        bridgedClient := some { userId := "@bob:hs", isBot := false },
        ghostUserId := "@g" }
      { domain := "srv", networkId := "net" }
      { nick := "alice", isVirtual := false }
      { nick := "M-bob", isVirtual := true }
      "#c" "Reasons" =
      OnKickResult.enqueued
        { rooms := ["!r"], userId := "@bob:hs", shouldKick := true,
          kickReason := some "alice has kicked this user from #c (Reasons)",
          retry := true, deop := false, attempts := 0 } ∧
    LeaveItem.shouldKick
      { rooms := ["!r"], userId := "@bob:hs", shouldKick := true,
        kickReason := some "alice has kicked this user from #c (Reasons)",
        retry := true, deop := false, attempts := 0 } = true :=
  ⟨by decide, by decide,
   (c5_amended_virtual_kickee_is_kicked
      { store := { mappings := [("srv", "#c", "!r")], roomVis := [] },
        bridgedClient := some { userId := "@bob:hs", isBot := false },
        ghostUserId := "@g" }
      { domain := "srv", networkId := "net" }
      { nick := "alice", isVirtual := false }
      { nick := "M-bob", isVirtual := true }
      "#c" "Reasons"
      { rooms := ["!r"], userId := "@bob:hs", shouldKick := true,
        kickReason := some "alice has kicked this user from #c (Reasons)",
        retry := true, deop := false, attempts := 0 }
      (fun _ => CallResult.ok)
      (by decide) (by decide)).1⟩

end Bridge

namespace Bridge

theorem leaveLoopTail_rooms_not_retried (item : LeaveItem) (st : LeaveRunState)
    (roomId : String)
    (h1 : roomId ∉ st.retryRooms)
    (h2 : ∀ e ∈ st.enqueues, roomId ∉ e.rooms) :
    roomId ∉ (leaveLoopTail item st).1.retryRooms ∧
    ∀ e ∈ (leaveLoopTail item st).1.enqueues, roomId ∉ e.rooms := by
  constructor
  · rw [leaveLoopTail_retryRooms]
    exact h1
  · rcases leaveLoopTail_enqueues item st with h | h <;> rw [h]
    · exact h2
    · intro e hm
      rcases List.mem_append.mp hm with hh | hh
      · exact h2 e hh
      · rw [List.mem_singleton] at hh
        subst hh
        exact h1

theorem handleLeave_terminal_branch_aux (env : String → CallResult)
    (item : LeaveItem) (rest : List String) (roomId : String)
    (ih : ∀ st : LeaveRunState, roomId ∉ st.retryRooms →
      (∀ e ∈ st.enqueues, roomId ∉ e.rooms) →
      roomId ∉ (handleLeaveLoop env item rest st).retryRooms ∧
      ∀ e ∈ (handleLeaveLoop env item rest st).enqueues, roomId ∉ e.rooms)
    (st : LeaveRunState)
    (h1 : roomId ∉ st.retryRooms)
    (h2 : ∀ e ∈ st.enqueues, roomId ∉ e.rooms) :
    roomId ∉ (if (leaveLoopTail item st).2 = true
        then handleLeaveLoop env item rest (leaveLoopTail item st).1
        else (leaveLoopTail item st).1).retryRooms ∧
    ∀ e ∈ (if (leaveLoopTail item st).2 = true
        then handleLeaveLoop env item rest (leaveLoopTail item st).1
        else (leaveLoopTail item st).1).enqueues, roomId ∉ e.rooms := by
  obtain ⟨ht1, ht2⟩ := leaveLoopTail_rooms_not_retried item st roomId h1 h2
  cases htc : (leaveLoopTail item st).2 with
  | true =>
    rw [if_pos rfl]
    exact ih _ ht1 ht2
  | false =>
    rw [if_neg (by simp)]
    exact ⟨ht1, ht2⟩

theorem handleLeaveLoop_terminal_not_retried (env : String → CallResult)
    (item : LeaveItem) (roomId : String)
    (hterm : ∀ (ec : Option String) (hs : Option Int),
      env roomId = CallResult.err ec hs →
      (!item.retry || ec == some "M_FORBIDDEN" || leaveIs400 hs) = true) :
    ∀ (rooms : List String) (st : LeaveRunState),
      roomId ∉ st.retryRooms →
      (∀ e ∈ st.enqueues, roomId ∉ e.rooms) →
      roomId ∉ (handleLeaveLoop env item rooms st).retryRooms ∧
      ∀ e ∈ (handleLeaveLoop env item rooms st).enqueues, roomId ∉ e.rooms := by
  intro rooms
  induction rooms with
  | nil =>
    intro st h1 h2
    exact ⟨h1, h2⟩
  | cons r rest ih =>
    intro st h1 h2
    rw [handleLeaveLoop]
    cases henv : env r with
    | ok =>
      exact handleLeave_terminal_branch_aux env item rest roomId ih _ h1 h2
    | err ec hs =>
      dsimp only
      cases hcond : (!item.retry || ec == some "M_FORBIDDEN" || leaveIs400 hs) with
      | true =>
        rw [if_pos rfl]
        exact ih _ h1 h2
      | false =>
        rw [if_neg (by simp)]
        have hne : r ≠ roomId := by
          intro hEq
          subst hEq
          have hT := hterm ec hs henv
          rw [hT] at hcond
          exact absurd hcond (by simp)
        have h1a : roomId ∉ st.retryRooms ++ [r] := by
          intro hm
          rcases List.mem_append.mp hm with hh | hh
          · exact h1 hh
          · rw [List.mem_singleton] at hh
            exact hne hh.symm
        exact handleLeave_terminal_branch_aux env item rest roomId ih _ h1a h2

/-- Claim C6 as stated is false on the code: a leave failing with HTTP status
exactly 400 (which lies in the claimed terminal 400–499 non-403 range) is not
terminal. The `is400` test is `ex.httpStatus - 400 > 0`, which excludes 400
itself, so the room is pushed onto the retry set and the item is re-enqueued
for it. -/
theorem c6_status_400_retried_counterexample :
    leaveIs400 (some 400) = false ∧
    (handleLeaveQueue (fun _ => CallResult.err (some "M_UNKNOWN") (some 400))
      { rooms := ["!r"], userId := "@u", shouldKick := false, kickReason := none,
        retry := true, deop := false, attempts := 0 }).retryRooms = ["!r"] ∧
    ((handleLeaveQueue (fun _ => CallResult.err (some "M_UNKNOWN") (some 400))
      { rooms := ["!r"], userId := "@u", shouldKick := false, kickReason := none,
        retry := true, deop := false, attempts := 0 }).enqueues.map
        (fun e => e.rooms)) = [["!r"]] := by
  refine ⟨by decide, by decide, by decide⟩

/-- Claim C6 amended: a leave/kick failure for a room is terminal — the room
is never added to the retry set and never appears in a re-enqueued item —
when retry is disallowed, or the errcode is `M_FORBIDDEN`, or the HTTP status
is strictly between 400 and 500 (401–499, which includes 403); a status of
exactly 400 is outside the terminal range and is retried. -/
theorem c6_amended_terminal_client_errors (env : String → CallResult)
    (item : LeaveItem) (roomId : String) (ec : Option String) (hs : Option Int)
    (henv : env roomId = CallResult.err ec hs)
    (hterm : item.retry = false ∨ ec = some "M_FORBIDDEN" ∨
      (∃ n : Int, hs = some n ∧ 400 < n ∧ n < 500)) :
    roomId ∉ (handleLeaveQueue env item).retryRooms ∧
    ∀ e ∈ (handleLeaveQueue env item).enqueues, roomId ∉ e.rooms := by
  apply handleLeaveLoop_terminal_not_retried env item roomId ?_ item.rooms _
    (List.not_mem_nil roomId)
    (by intro e he; exact absurd he (List.not_mem_nil e))
  intro ec2 hs2 henv2
  rw [henv] at henv2
  injection henv2 with hec hhs
  subst hec
  subst hhs
  rcases hterm with h | h | ⟨n, hn, hgt, hlt⟩
  · simp [h]
  · simp [h]
  · have h4 : leaveIs400 hs = true := by
      rw [hn]
      unfold leaveIs400
      simp only [Bool.and_eq_true, decide_eq_true_eq]
      omega
    simp [h4]

/-- Witness for the amended C6: a kick rejected with errcode `M_FORBIDDEN` is
terminal for its room. -/
theorem c6_amended_terminal_client_errors_witness :
    ((fun _ : String => CallResult.err (some "M_FORBIDDEN") none) "!r" =
      CallResult.err (some "M_FORBIDDEN") none) ∧
    "!r" ∉ (handleLeaveQueue (fun _ => CallResult.err (some "M_FORBIDDEN") none)
      { rooms := ["!r"], userId := "@u", shouldKick := true,
        kickReason := some "r", retry := true, deop := false,
        attempts := 0 }).retryRooms :=
  ⟨rfl,
   (c6_amended_terminal_client_errors
      (fun _ => CallResult.err (some "M_FORBIDDEN") none)
      { rooms := ["!r"], userId := "@u", shouldKick := true,
        kickReason := some "r", retry := true, deop := false, attempts := 0 }
      "!r" (some "M_FORBIDDEN") none rfl (Or.inr (Or.inl rfl))).1⟩

end Bridge

namespace Bridge

/-- Claim C7: while a PM-room-creation promise for a pair key is outstanding
and not rejected, a further first-contact PM for the same pair awaits the
same promise instead of invoking room creation again: starting from a state
with no promise for the key, two consecutive first-contact resolutions (store
has no room) perform exactly one `createPmRoom` call in total and both return
the same awaited promise. -/
theorem c7_pm_room_creation_dedup (key : String) (st : PmState)
    (hnone : st.promises.lookup key = none) :
    (pmRoomStep none key (pmRoomStep none key st).1).1.createCalls =
      st.createCalls + 1 ∧
    (pmRoomStep none key st).2 =
      PmRoomSource.awaited key (PromiseState.pending st.createCalls) ∧
    (pmRoomStep none key (pmRoomStep none key st).1).2 =
      (pmRoomStep none key st).2 := by
  have h1 : pmRoomStep none key st =
      ({ promises := setAssoc st.promises key (PromiseState.pending st.createCalls),
         createCalls := st.createCalls + 1 },
       PmRoomSource.awaited key (PromiseState.pending st.createCalls)) := by
    unfold pmRoomStep
    rw [hnone]
  have h2 := lookup_setAssoc st.promises key (PromiseState.pending st.createCalls)
  have h3 : pmRoomStep none key
      { promises := setAssoc st.promises key (PromiseState.pending st.createCalls),
        createCalls := st.createCalls + 1 } =
      ({ promises := setAssoc st.promises key (PromiseState.pending st.createCalls),
         createCalls := st.createCalls + 1 },
       PmRoomSource.awaited key (PromiseState.pending st.createCalls)) := by
    unfold pmRoomStep
    dsimp only
    rw [h2]
  rw [h1]
  dsimp only
  rw [h3]
  exact ⟨rfl, rfl, rfl⟩

/-- Witness for C7: an empty promise map, a fresh pair key. -/
theorem c7_pm_room_creation_dedup_witness :
    ((PmState.mk [] 0).promises.lookup "@a:hs @b:hs" = none) ∧
    (pmRoomStep none "@a:hs @b:hs"
      (pmRoomStep none "@a:hs @b:hs" (PmState.mk [] 0)).1).1.createCalls = 1 :=
  ⟨rfl, (c7_pm_room_creation_dedup "@a:hs @b:hs" (PmState.mk [] 0) rfl).1⟩

theorem serviceTopicQueue_fresh (topic : String) :
    ∀ (entries : List TopicEntry), (∀ e ∈ entries, e.topic ≠ some topic) →
      serviceTopicQueue (fun _ => true) (fun _ => true) topic entries =
        (entries.map (fun e => { e with topic := some topic }),
         entries.map (fun e => TopicCall.mk e.roomId topic false)) := by
  intro entries
  induction entries with
  | nil => intro _; rfl
  | cons e rest ih =>
    intro h
    have he : (e.topic == some topic) = false := by
      simp only [beq_eq_false_iff_ne]
      exact h e (List.mem_cons_self e rest)
    rw [serviceTopicQueue]
    rw [ih (fun x hx => h x (List.mem_cons_of_mem e hx))]
    simp [he]

theorem serviceTopicQueue_all_set (topic : String) (f g : String → Bool) :
    ∀ (entries : List TopicEntry), (∀ e ∈ entries, e.topic = some topic) →
      serviceTopicQueue f g topic entries = (entries, []) := by
  intro entries
  induction entries with
  | nil => intro _; rfl
  | cons e rest ih =>
    intro h
    have he : (e.topic == some topic) = true := by
      simp only [beq_iff_eq]
      exact h e (List.mem_cons_self e rest)
    rw [serviceTopicQueue]
    rw [ih (fun x hx => h x (List.mem_cons_of_mem e hx))]
    simp [he]

/-- Claim C8: with all remote topic-set calls succeeding and every target
room's cached topic differing from the incoming topic, one propagation pass
issues exactly one remote topic-set call per mapped room and updates every
cached topic; a second pass with the same topic finds every cached topic
equal to the incoming one, skips every room, and issues no remote call. -/
theorem c8_topic_set_idempotent (topic : String) (entries : List TopicEntry)
    (hfresh : ∀ e ∈ entries, e.topic ≠ some topic) :
    (serviceTopicQueue (fun _ => true) (fun _ => true) topic entries).2 =
      entries.map (fun e => TopicCall.mk e.roomId topic false) ∧
    (serviceTopicQueue (fun _ => true) (fun _ => true) topic entries).1 =
      entries.map (fun e => { e with topic := some topic }) ∧
    (serviceTopicQueue (fun _ => true) (fun _ => true) topic
      (serviceTopicQueue (fun _ => true) (fun _ => true) topic entries).1).2 = [] := by
  have hrun := serviceTopicQueue_fresh topic entries hfresh
  refine ⟨by rw [hrun], by rw [hrun], ?_⟩
  rw [hrun]
  dsimp only
  have hset : ∀ x ∈ entries.map (fun e => ({ e with topic := some topic } : TopicEntry)),
      x.topic = some topic := by
    intro x hx
    obtain ⟨e, _, he⟩ := List.mem_map.mp hx
    rw [← he]
  rw [serviceTopicQueue_all_set topic (fun _ => true) (fun _ => true) _ hset]

/-- Witness for C8: a single mapped room with no cached topic. -/
theorem c8_topic_set_idempotent_witness :
    (∀ e ∈ [TopicEntry.mk "!r" none], e.topic ≠ some "T") ∧
    (serviceTopicQueue (fun _ => true) (fun _ => true) "T"
      [TopicEntry.mk "!r" none]).2 = [TopicCall.mk "!r" "T" false] :=
  ⟨by decide,
   (c8_topic_set_idempotent "T" [TopicEntry.mk "!r" none] (by decide)).1⟩

end Bridge

